import Mathlib

/-!
Shallow embedding of the Story2Music repository (src/utils.py and
src/pretrain.py) and verification of its specification claims.

Python `int(N * 0.8)` and `int(N * 0.1)` are modelled as the natural-number
floors `N * 8 / 10` and `N / 10`: for every corpus size representable in
practice the double-precision products round to a value whose floor equals
the exact floor, because 0.8 and 0.1 round upward in binary64 and the
products stay well within half an ulp of the exact rationals.
-/

namespace Story2Music

/-! ## utils.py : split_pretrain_data -/

/-- `split_pretrain_data` (utils.py lines 73-99), restricted to the pure
partitioning of the globbed path list; the per-subset chunking is delegated
to the external `split_files_for_training` and is out of scope. -/
def split_pretrain_data (midi_paths : List String) :
    List String × List String × List String :=
  let total_num_files := midi_paths.length
  let num_files_train := total_num_files * 8 / 10
  let num_files_valid := total_num_files * 1 / 10
  let midi_paths_train := midi_paths.take num_files_train
  let midi_paths_valid := (midi_paths.drop num_files_train).take num_files_valid
  let midi_paths_test := midi_paths.drop (num_files_train + num_files_valid)
  (midi_paths_train, midi_paths_valid, midi_paths_test)

/-! ## utils.py : convert_to_midi -/

/-- The reverse vocabulary `id_to_token = {v: k for k, v in tokenizer.vocab.items()}`
(utils.py line 18). The tokenizer vocabulary is a finite map from token
strings to integer ids; the reverse lookup finds the first pair carrying a
given id. -/
def id_to_token (vocab : List (String × Int)) (i : Int) : Option String :=
  (vocab.find? (fun p => p.2 == i)).map Prod.fst

/-- The list comprehension `[id_to_token[i] for i in token_ids]`
(utils.py line 19): evaluated left to right, raising `KeyError` (modelled as
`Except.error` carrying the offending id) at the first id absent from the
reverse map. -/
def lookupTokens (vocab : List (String × Int)) : List Int → Except Int (List String)
  | [] => .ok []
  | i :: rest =>
    match id_to_token vocab i with
    | none => .error i
    | some t =>
      match lookupTokens vocab rest with
      | .error e => .error e
      | .ok ts => .ok (t :: ts)

/-- `convert_to_midi` (utils.py lines 13-26). On success it returns the token
strings that get written to `generated_tokens.txt` and rendered to the dump
path; a `KeyError` in the comprehension aborts before any file is written. -/
def convert_to_midi (vocab : List (String × Int)) (token_ids : List Int) :
    Except Int (List String) :=
  lookupTokens vocab token_ids

/-! ## utils.py : load_pretrain_data, and the acquisition step of pretrain.main -/

/-- A filesystem-affecting operation performed by the acquisition step. -/
inductive AcqOp where
  | download (url dest : String)
  | extract (zip dir : String)
  | removeFile (path : String)
deriving DecidableEq, Repr

def AcqOp.isDownload : AcqOp → Bool
  | .download _ _ => true
  | _ => false

def AcqOp.isExtract : AcqOp → Bool
  | .extract _ _ => true
  | _ => false

/-- `load_pretrain_data` (utils.py lines 54-70) as its trace of effects:
one download of the archive, one extraction of all entries, then removal of
the archive; it returns the extraction directory name. -/
def load_pretrain_data (download_url output_zip extracted_file_name : String) :
    List AcqOp × String :=
  ([.download download_url output_zip,
    .extract output_zip extracted_file_name,
    .removeFile output_zip], extracted_file_name)

/-- Effect of one acquisition operation on the set of paths present on disk. -/
def applyAcqOp (disk : List String) : AcqOp → List String
  | .download _ dest => dest :: disk
  | .extract _ dir => dir :: disk
  | .removeFile p => disk.filter (fun q => q ≠ p)

def runAcqOps (disk : List String) (ops : List AcqOp) : List String :=
  ops.foldl applyAcqOp disk

def pretrain_file_id : String := "1BDEPaEWFEB2ADquS1VYp5iLZYVngw799"

def pretrain_url : String := "https://drive.google.com/uc?id=" ++ pretrain_file_id

/-- The guarded acquisition step of `main` (pretrain.py lines 31-37):
`if not os.path.exists("midis")`, download and unzip; otherwise do nothing. -/
def acquisitionOps (midisExists : Bool) : List AcqOp :=
  if midisExists then [] else (load_pretrain_data pretrain_url "midis.zip" "midis").1

/-! ## utils.py : get_eval_metrics -/

/-- The names bound at module level in utils.py: the imports of lines 1-10
and the four function definitions. The name `py` is not among them. -/
def utilsModuleGlobals : List String :=
  ["REMI", "TokenizerConfig", "split_files_for_training", "Path", "os",
   "muspy", "shuffle", "torch", "gdown", "zipfile",
   "convert_to_midi", "get_eval_metrics", "generate_causal_mask",
   "load_pretrain_data", "split_pretrain_data"]

/-- Looking up a global name during evaluation of a function body: a missing
name raises `NameError`. -/
def resolveName (globals : List String) (n : String) : Except String Unit :=
  if n ∈ globals then .ok () else .error ("NameError: name " ++ n ++ " is not defined")

/-- The external muspy analysis library, abstracted: the metric values it
returns are out of scope, only the calls into it matter. -/
structure MuspyLib where
  read_midi : String → Nat
  pitch_range : Nat → Nat
  n_pitches_used : Nat → Nat
  n_pitch_classes_used : Nat → Nat
  polyphony : Nat → Nat
  polyphony_rate : Nat → Nat
  empty_beat_rate : Nat → Nat

/-- `get_eval_metrics` (utils.py lines 30-47), with Python global-name
resolution made explicit: each metric call first resolves the receiver name
(`muspy` six times, but `py` for the polyphony call on line 36) against the
module globals, then applies the external library function. -/
def get_eval_metrics (globals : List String) (lib : MuspyLib) (midi_path : String) :
    Except String (List Nat) := do
  let _ ← resolveName globals "muspy"
  let music := lib.read_midi midi_path
  let _ ← resolveName globals "muspy"
  let pitch_range := lib.pitch_range music
  let _ ← resolveName globals "muspy"
  let n_pitch := lib.n_pitches_used music
  let _ ← resolveName globals "muspy"
  let n_pitch_class := lib.n_pitch_classes_used music
  let _ ← resolveName globals "py"
  let polyphony := lib.polyphony music
  let _ ← resolveName globals "muspy"
  let polyphony_rate := lib.polyphony_rate music
  let _ ← resolveName globals "muspy"
  let empty_beat_rate := lib.empty_beat_rate music
  return [pitch_range, n_pitch, n_pitch_class, polyphony, polyphony_rate, empty_beat_rate]

/-! ## pretrain.py : model construction, resume, checkpointing -/

def num_epochs : Nat := 20

def save_every : Nat := 2

def log_interval : Nat := 500

def checkpoint_path : String := "pretrain_checkpoints/decoder_epoch_4.pt"

/-- The checkpoint record saved by `torch.save` on pretrain.py lines 121-126.
Model and optimizer state dicts are opaque handles; the loss is the scalar
value of the last batch loss. -/
structure CheckpointRecord where
  epoch : Nat
  model_state_dict : Nat
  optimizer_state_dict : Nat
  loss : ℚ
deriving DecidableEq, Repr

/-- The model object held by the trainer after the optional
data-parallel wrapping of pretrain.py lines 55-57. -/
inductive WrappedModel where
  | plain (state : Nat)
  | dataParallel (state : Nat)
deriving DecidableEq, Repr

/-- pretrain.py lines 53-57: wrap the freshly built `MidiDecoderOnlyModel`
in `nn.DataParallel` exactly when more than one accelerator is visible. -/
def buildModel (cuda_device_count : Nat) (state : Nat) : WrappedModel :=
  if cuda_device_count > 1 then .dataParallel state else .plain state

/-- Modelled from the spec: `MidiDecoderOnlyModel` lives in midi_decoder.py,
which is not among the source files; per the spec it is the plain
decoder-only network that `main` optionally wraps in a data-parallel
container, so it exposes no attribute named `module`, while the
data-parallel wrapper exposes the wrapped network under that attribute.
Accessing `.module` therefore fails with `AttributeError` on the plain
model and returns the inner state on the wrapped one. -/
def WrappedModel.moduleAttr : WrappedModel → Except String Nat
  | .plain _ => .error "AttributeError: MidiDecoderOnlyModel object has no attribute module"
  | .dataParallel s => .ok s

/-- Replace the parameter state of the inner network (the effect of
`load_state_dict` on the resolved module). -/
def WrappedModel.withState : WrappedModel → Nat → WrappedModel
  | .plain _, s => .plain s
  | .dataParallel _, s => .dataParallel s

/-- The resume block of `main` (pretrain.py lines 64-74): if a checkpoint
exists at the fixed `checkpoint_path`, load model parameters through
`model.module.load_state_dict`, load optimizer state, and set
`start_epoch = checkpoint.epoch + 1`; otherwise keep `start_epoch = 0`.
`fs` maps a path to the checkpoint stored there, if any. Returns the model,
the optimizer state and `start_epoch`, or the uncaught exception. -/
def resumeStep (fs : String → Option CheckpointRecord) (model : WrappedModel)
    (optimizer_state : Nat) : Except String (WrappedModel × Nat × Nat) :=
  match fs checkpoint_path with
  | none => .ok (model, optimizer_state, 0)
  | some checkpoint =>
    match model.moduleAttr with
    | .error e => .error e
    | .ok _ =>
      .ok (model.withState checkpoint.model_state_dict,
           checkpoint.optimizer_state_dict, checkpoint.epoch + 1)

/-- The epoch loop header `for epoch in range(start_epoch, num_epochs)`
(pretrain.py line 83). -/
def epochRange (start_epoch : Nat) : List Nat :=
  List.range' start_epoch (num_epochs - start_epoch)

/-- The guard of the checkpoint block (pretrain.py line 119):
`epoch % save_every == 0 and epoch != 0`. -/
def saveCondition (epoch : Nat) : Bool :=
  epoch % save_every == 0 && epoch != 0

/-- The f-string path `pretrain_checkpoints/decoder_epoch_{epoch}.pt`
of pretrain.py line 120. -/
def decoder_checkpoint_path (epoch : Nat) : String :=
  "pretrain_checkpoints/decoder_epoch_" ++ toString epoch ++ ".pt"

/-- A value stored under one key of the saved checkpoint dictionary. -/
inductive CkptVal where
  | intV (n : Nat)
  | stateV (s : Nat)
  | lossV (q : ℚ)
deriving DecidableEq, Repr

/-- The dictionary literal passed to `torch.save` (pretrain.py lines 121-126),
as an ordered association list: exactly the four keys `epoch`,
`model_state_dict`, `optimizer_state_dict`, `loss`. -/
def checkpointDict (epoch model_sd opt_sd : Nat) (loss : ℚ) : List (String × CkptVal) :=
  [("epoch", .intV epoch),
   ("model_state_dict", .stateV model_sd),
   ("optimizer_state_dict", .stateV opt_sd),
   ("loss", .lossV loss)]

/-- The end-of-epoch checkpoint block (pretrain.py lines 119-127): when the
guard holds, read the parameters through `model.module.state_dict()` and
append a write of the record to the checkpoint store `fs` (a list of
path-record pairs); the trainer only ever appends, it never removes. -/
def checkpointStep (model : WrappedModel) (opt_sd : Nat) (loss : ℚ) (epoch : Nat)
    (fs : List (String × List (String × CkptVal))) :
    Except String (List (String × List (String × CkptVal))) :=
  if saveCondition epoch then
    match model.moduleAttr with
    | .error e => .error e
    | .ok model_sd =>
      .ok (fs ++ [(decoder_checkpoint_path epoch, checkpointDict epoch model_sd opt_sd loss)])
  else .ok fs

/-! ## pretrain.py : the padding mask of the batch loop -/

/-- pretrain.py lines 93-95: `attn_mask = attention_mask[:, :-1]` then
`tgt_key_padding_mask = (attn_mask == 0)`. A batch attention mask is a list
of rows of 0/1 entries; the derived mask drops the last column and is true
exactly where the shifted mask is zero. -/
def tgt_key_padding_mask (attention_mask : List (List Nat)) : List (List Bool) :=
  attention_mask.map (fun row => row.dropLast.map (fun a => a == 0))

/-! ## pretrain.py : step counting, loss accumulation and logging -/

/-- One logged running-average entry (pretrain.py lines 109-112). -/
structure LogEntry where
  step : Nat
  avg : ℚ
deriving DecidableEq, Repr

/-- The batch loop of one epoch (pretrain.py lines 85-112), abstracted over
the per-batch loss values: `step` increments on every batch and is carried
in from previous epochs, `total_loss` accumulates the epoch's losses, and
whenever `step % log_interval == 0` the entry
`average_loss = total_loss / step` is logged. Returns the final step
counter, the final epoch total loss, and the log entries in order. -/
def runBatches (step : Nat) (total_loss : ℚ) (losses : List ℚ) :
    Nat × ℚ × List LogEntry :=
  match losses with
  | [] => (step, total_loss, [])
  | l :: rest =>
    let step1 := step + 1
    let total1 := total_loss + l
    let r := runBatches step1 total1 rest
    if step1 % log_interval == 0 then
      (r.1, r.2.1, ⟨step1, total1 / ((step1 : Nat) : ℚ)⟩ :: r.2.2)
    else r

/-- The epoch loop of `main` as it affects step counting and logging
(pretrain.py lines 81-117): `total_loss = 0` at the start of each epoch,
while `step` is initialised once before the loop and never reset. Returns
the final step counter and the per-epoch lists of log entries. -/
def runEpochs (step : Nat) (epoch_losses : List (List ℚ)) :
    Nat × List (List LogEntry) :=
  match epoch_losses with
  | [] => (step, [])
  | e :: rest =>
    let r := runBatches step 0 e
    let r2 := runEpochs r.1 rest
    (r2.1, r.2.2 :: r2.2)

/-- Specification of the log entries emitted while processing `losses`
starting from global step counter `step` and accumulated loss `total`:
an entry appears after the `(i+1)`-st batch exactly when the global step
`step + i + 1` is a multiple of `log_interval`, and its value divides the
accumulated loss (`total` plus the prefix sum of the first `i+1` batch
losses) by that global step count. -/
def loggedEntries (step : Nat) (total : ℚ) (losses : List ℚ) : List LogEntry :=
  (List.range losses.length).filterMap (fun i =>
    if (step + i + 1) % log_interval == 0 then
      some (LogEntry.mk (step + i + 1)
        ((total + (losses.take (i + 1)).sum) / ((step + i + 1 : Nat) : ℚ)))
    else none)

/-! ## Theorems -/

/-- Splicing a list from contiguous take/drop slices reassembles it. -/
theorem take_drop_take_drop_append (l : List String) (a b : Nat) :
    l.take a ++ ((l.drop a).take b ++ l.drop (a + b)) = l := by
  have h : l.drop (a + b) = (l.drop a).drop b := (List.drop_drop b a l).symm
  rw [h, List.take_append_drop, List.take_append_drop]

/-- C1: For every corpus of N MIDI files enumerated by the splitter,
`split_pretrain_data` partitions the path list into `⌊0.8 N⌋` train files,
`⌊0.1 N⌋` validation files and `N - ⌊0.8 N⌋ - ⌊0.1 N⌋` test files, taken as
three contiguous, non-overlapping, order-preserving slices whose
concatenation is the original list, so no file appears in more than one
subset. -/
theorem split_pretrain_data_partition (l : List String) :
    (split_pretrain_data l).1.length = l.length * 8 / 10
    ∧ (split_pretrain_data l).2.1.length = l.length * 1 / 10
    ∧ (split_pretrain_data l).2.2.length =
        l.length - l.length * 8 / 10 - l.length * 1 / 10
    ∧ (split_pretrain_data l).1 ++ (split_pretrain_data l).2.1
        ++ (split_pretrain_data l).2.2 = l := by
  refine ⟨?_, ?_, ?_, ?_⟩
  · simp only [split_pretrain_data, List.length_take]
    omega
  · simp only [split_pretrain_data, List.length_take, List.length_drop]
    omega
  · simp only [split_pretrain_data, List.length_drop]
    omega
  · simp only [split_pretrain_data]
    rw [List.append_assoc]
    exact take_drop_take_drop_append l _ _

/-- C10: For every non-empty corpus, the test subset produced by
`split_pretrain_data` is non-empty: the third slice always keeps at least
one file, because `⌊0.8 N⌋ + ⌊0.1 N⌋ < N` whenever `N ≥ 1`. -/
theorem split_pretrain_data_test_nonempty (l : List String) (h : 1 ≤ l.length) :
    1 ≤ (split_pretrain_data l).2.2.length := by
  simp only [split_pretrain_data, List.length_drop]
  omega

/-- Witness for C10 at the one-element corpus. -/
theorem split_pretrain_data_test_nonempty_witness :
    1 ≤ (["a.mid"] : List String).length
    ∧ 1 ≤ (split_pretrain_data ["a.mid"]).2.2.length :=
  ⟨by decide, split_pretrain_data_test_nonempty ["a.mid"] (by decide)⟩

/-- C4: The acquisition step is skipped entirely when the `midis` directory
exists; otherwise its trace holds exactly one download and one extraction,
and after running the trace from any initial disk the archive `midis.zip`
is not on disk. -/
theorem acquisition_skip_once_and_cleanup :
    acquisitionOps true = []
    ∧ ((acquisitionOps false).filter AcqOp.isDownload).length = 1
    ∧ ((acquisitionOps false).filter AcqOp.isExtract).length = 1
    ∧ (∀ disk : List String,
        (runAcqOps disk (acquisitionOps false)).countP (fun q => q == "midis.zip") = 0) := by
  refine ⟨rfl, rfl, rfl, ?_⟩
  intro disk
  show (("midis" :: "midis.zip" :: disk).filter (fun q => q ≠ "midis.zip")).countP
      (fun q => q == "midis.zip") = 0
  rw [List.countP_filter]
  rw [List.countP_eq_zero]
  intro a _
  simp only [ne_eq, decide_not, Bool.and_eq_true, beq_iff_eq, Bool.not_eq_eq_eq_not,
    Bool.not_true, decide_eq_false_iff_not, not_and]
  intro h
  simp [h]

/-- C8: For every input MIDI path (and any behaviour of the external muspy
library), `get_eval_metrics` evaluated in the utils module globals fails
with a `NameError` on the undefined reference `py` before returning a
result. -/
theorem get_eval_metrics_always_fails (lib : MuspyLib) (midi_path : String) :
    get_eval_metrics utilsModuleGlobals lib midi_path =
      .error "NameError: name py is not defined" := rfl

/-- C2: At startup, if a checkpoint is stored at the fixed path
`pretrain_checkpoints/decoder_epoch_4.pt` then (on the data-parallel-wrapped
model, the one case in which the `model.module` access resolves — see the
single-accelerator analysis) the model parameters and the optimizer state
are loaded from it and `start_epoch = checkpoint.epoch + 1`; if nothing is
stored at that path, `start_epoch = 0`; and the epoch loop then iterates
over exactly the range `[start_epoch, num_epochs = 20)`. -/
theorem resume_fixed_path_and_epoch_range :
    num_epochs = 20
    ∧ (∀ (fs : String → Option CheckpointRecord) (m opt0 : Nat) (ck : CheckpointRecord),
        fs checkpoint_path = some ck →
        resumeStep fs (.dataParallel m) opt0 =
          .ok (.dataParallel ck.model_state_dict, ck.optimizer_state_dict, ck.epoch + 1))
    ∧ (∀ (fs : String → Option CheckpointRecord) (model : WrappedModel) (opt0 : Nat),
        fs checkpoint_path = none →
        resumeStep fs model opt0 = .ok (model, opt0, 0))
    ∧ (∀ start_epoch e : Nat,
        e ∈ epochRange start_epoch ↔ start_epoch ≤ e ∧ e < num_epochs) := by
  refine ⟨rfl, ?_, ?_, ?_⟩
  · intro fs m opt0 ck h
    simp [resumeStep, h, WrappedModel.moduleAttr, WrappedModel.withState]
  · intro fs model opt0 h
    simp [resumeStep, h]
  · intro s e
    simp only [epochRange, List.mem_range'_1, num_epochs]
    omega

/-- Witness for C2: a store holding a checkpoint of epoch 4 at the fixed
path resumes at epoch 5 with its state loaded; an empty store resumes at
epoch 0; and epoch 7 lies in the range from 5. -/
theorem resume_fixed_path_and_epoch_range_witness :
    ((fun p => if p = checkpoint_path then some (⟨4, 11, 22, 7/2⟩ : CheckpointRecord)
        else none) checkpoint_path = some ⟨4, 11, 22, 7/2⟩)
    ∧ resumeStep
        (fun p => if p = checkpoint_path then some ⟨4, 11, 22, 7/2⟩ else none)
        (.dataParallel 9) 3 = .ok (.dataParallel 11, 22, 5)
    ∧ resumeStep (fun _ => none) (.plain 9) 3 = .ok (.plain 9, 3, 0)
    ∧ (7 ∈ epochRange 5 ↔ 5 ≤ 7 ∧ 7 < num_epochs) := by
  refine ⟨by simp, ?_, ?_, ?_⟩
  · exact resume_fixed_path_and_epoch_range.2.1 _ 9 3 ⟨4, 11, 22, 7/2⟩ (by simp)
  · exact resume_fixed_path_and_epoch_range.2.2.1 _ (.plain 9) 3 rfl
  · exact resume_fixed_path_and_epoch_range.2.2.2 5 7

/-- C3: A checkpoint record with exactly the four keys `epoch`,
`model_state_dict`, `optimizer_state_dict`, `loss` is persisted at the end
of an epoch iff `epoch % save_every(=2) == 0 ∧ epoch ≠ 0`, at the path
`pretrain_checkpoints/decoder_epoch_{epoch}.pt` keyed by the current epoch;
the trainer only ever appends to the checkpoint store, never deleting. -/
theorem checkpoint_iff_four_keys_no_delete :
    save_every = 2
    ∧ (∀ epoch : Nat, saveCondition epoch = true ↔ (epoch % 2 = 0 ∧ epoch ≠ 0))
    ∧ (∀ (e m o : Nat) (l : ℚ), (checkpointDict e m o l).map Prod.fst =
        ["epoch", "model_state_dict", "optimizer_state_dict", "loss"])
    ∧ (∀ (m o : Nat) (l : ℚ) (epoch : Nat) fs, saveCondition epoch = true →
        checkpointStep (.dataParallel m) o l epoch fs =
          .ok (fs ++ [(decoder_checkpoint_path epoch, checkpointDict epoch m o l)]))
    ∧ (∀ (model : WrappedModel) (o : Nat) (l : ℚ) (epoch : Nat) fs,
        saveCondition epoch = false → checkpointStep model o l epoch fs = .ok fs)
    ∧ (∀ (model : WrappedModel) (o : Nat) (l : ℚ) (epoch : Nat) fs fs2,
        checkpointStep model o l epoch fs = .ok fs2 → ∀ x ∈ fs, x ∈ fs2) := by
  refine ⟨rfl, ?_, ?_, ?_, ?_, ?_⟩
  · intro epoch
    simp only [saveCondition, save_every, Bool.and_eq_true, beq_iff_eq, bne_iff_ne, ne_eq]
  · intro e m o l
    rfl
  · intro m o l epoch fs h
    simp [checkpointStep, h, WrappedModel.moduleAttr]
  · intro model o l epoch fs h
    simp [checkpointStep, h]
  · intro model o l epoch fs fs2 h x hx
    unfold checkpointStep at h
    by_cases hc : saveCondition epoch
    · rw [if_pos hc] at h
      cases hm : model.moduleAttr with
      | error e => rw [hm] at h; cases h
      | ok msd =>
        rw [hm] at h
        cases h
        exact List.mem_append_left _ hx
    · rw [if_neg hc] at h
      cases h
      exact hx

/-- Witness for C3: epoch 2 qualifies and epoch 1 does not; saving at
epoch 2 on a wrapped model appends the four-key record at the keyed path,
and the previously written entry is still present afterwards. -/
theorem checkpoint_iff_four_keys_no_delete_witness :
    saveCondition 2 = true
    ∧ saveCondition 1 = false
    ∧ checkpointStep (.dataParallel 5) 6 (1/2) 2 [("old.pt", checkpointDict 0 0 0 0)] =
        .ok [("old.pt", checkpointDict 0 0 0 0),
             (decoder_checkpoint_path 2, checkpointDict 2 5 6 (1/2))]
    ∧ ("old.pt", checkpointDict 0 0 0 0) ∈
        [("old.pt", checkpointDict 0 0 0 0),
         (decoder_checkpoint_path 2, checkpointDict 2 5 6 (1/2))] := by
  have h2 : saveCondition 2 = true := by decide
  have h1 : saveCondition 1 = false := by decide
  have hs := checkpoint_iff_four_keys_no_delete.2.2.2.1 5 6 (1/2) 2
      [("old.pt", checkpointDict 0 0 0 0)] h2
  refine ⟨h2, h1, hs, ?_⟩
  exact checkpoint_iff_four_keys_no_delete.2.2.2.2.2 (.dataParallel 5) 6 (1/2) 2
      [("old.pt", checkpointDict 0 0 0 0)] _ hs _ (by simp)

/-- C9: With at most one visible accelerator the model is not wrapped, and
both the checkpoint-resume step (when a checkpoint is stored at the fixed
path) and the checkpoint-save step (at a qualifying epoch) fail with an
attribute error on `model.module`, aborting training. -/
theorem module_attr_single_accelerator_aborts :
    (∀ dc st : Nat, dc ≤ 1 → buildModel dc st = .plain st)
    ∧ (∀ (fs : String → Option CheckpointRecord) (st o : Nat) (ck : CheckpointRecord),
        fs checkpoint_path = some ck →
        ∃ e, resumeStep fs (.plain st) o = .error e)
    ∧ (∀ (st o : Nat) (l : ℚ) (epoch : Nat) fs, saveCondition epoch = true →
        ∃ e, checkpointStep (.plain st) o l epoch fs = .error e) := by
  refine ⟨?_, ?_, ?_⟩
  · intro dc st h
    simp [buildModel]
    omega
  · intro fs st o ck h
    exact ⟨"AttributeError: MidiDecoderOnlyModel object has no attribute module",
      by simp [resumeStep, h, WrappedModel.moduleAttr]⟩
  · intro st o l epoch fs h
    exact ⟨"AttributeError: MidiDecoderOnlyModel object has no attribute module",
      by simp [checkpointStep, h, WrappedModel.moduleAttr]⟩

/-- Witness for C9: one accelerator yields the unwrapped model, and with a
checkpoint of epoch 4 stored at the fixed path both resume and the save at
epoch 2 raise. -/
theorem module_attr_single_accelerator_aborts_witness :
    buildModel 1 9 = .plain 9
    ∧ ((fun p => if p = checkpoint_path then some (⟨4, 11, 22, 0⟩ : CheckpointRecord)
        else none) checkpoint_path = some ⟨4, 11, 22, 0⟩)
    ∧ (∃ e, resumeStep
        (fun p => if p = checkpoint_path then some ⟨4, 11, 22, 0⟩ else none)
        (.plain 9) 3 = .error e)
    ∧ saveCondition 2 = true
    ∧ (∃ e, checkpointStep (.plain 9) 3 0 2 [] = .error e) :=
  ⟨module_attr_single_accelerator_aborts.1 1 9 (by decide),
   by simp,
   module_attr_single_accelerator_aborts.2.1 _ 9 3 ⟨4, 11, 22, 0⟩ (by simp),
   by decide,
   module_attr_single_accelerator_aborts.2.2 9 3 0 2 [] (by decide)⟩

/-- When an id lies outside `[0, vocab_size)` and every vocabulary entry
carries an id inside that range, the reverse lookup misses. -/
theorem id_to_token_eq_none_of_out_of_range (vocab : List (String × Int)) (i : Int)
    (hwf : ∀ p ∈ vocab, 0 ≤ p.2 ∧ p.2 < (vocab.length : Int))
    (hout : ¬(0 ≤ i ∧ i < (vocab.length : Int))) :
    id_to_token vocab i = none := by
  simp only [id_to_token, Option.map_eq_none', List.find?_eq_none]
  intro p hp
  simp only [beq_iff_eq]
  intro hpi
  exact hout (hpi ▸ hwf p hp)

/-- C5: `convert_to_midi` fails with a lookup error (modelled as
`Except.error` carrying the offending id, raised before any output file is
written) whenever some element of the token-id sequence lies outside the
tokenizer's vocabulary range `[0, vocab_size)`; the vocabulary is assumed
well-formed in that each of its entries carries an id inside that range. -/
theorem convert_to_midi_keyerror_on_unknown_id (vocab : List (String × Int))
    (token_ids : List Int)
    (hwf : ∀ p ∈ vocab, 0 ≤ p.2 ∧ p.2 < (vocab.length : Int))
    (hbad : ∃ i ∈ token_ids, ¬(0 ≤ i ∧ i < (vocab.length : Int))) :
    ∃ e, convert_to_midi vocab token_ids = .error e := by
  induction token_ids with
  | nil => simp at hbad
  | cons a t ih =>
    obtain ⟨i, hi, hout⟩ := hbad
    rcases List.mem_cons.mp hi with h | h
    · subst h
      refine ⟨i, ?_⟩
      simp only [convert_to_midi, lookupTokens,
        id_to_token_eq_none_of_out_of_range vocab i hwf hout]
    · simp only [convert_to_midi] at ih ⊢
      obtain ⟨e, he⟩ := ih ⟨i, h, hout⟩
      simp only [lookupTokens]
      cases hlook : id_to_token vocab a with
      | none => exact ⟨a, rfl⟩
      | some tok =>
        rw [he]
        exact ⟨e, rfl⟩

/-- Witness for C5: a one-token vocabulary and the out-of-range id 5. -/
theorem convert_to_midi_keyerror_on_unknown_id_witness :
    (∀ p ∈ [("PAD_None", (0 : Int))],
        0 ≤ p.2 ∧ p.2 < (([("PAD_None", (0 : Int))] : List (String × Int)).length : Int))
    ∧ (∃ i ∈ [(5 : Int)],
        ¬(0 ≤ i ∧ i < (([("PAD_None", (0 : Int))] : List (String × Int)).length : Int)))
    ∧ (∃ e, convert_to_midi [("PAD_None", (0 : Int))] [(5 : Int)] = .error e) :=
  ⟨by decide, by decide,
   convert_to_midi_keyerror_on_unknown_id [("PAD_None", (0 : Int))] [(5 : Int)]
     (by decide) (by decide)⟩

/-- Row `i` of the derived padding mask is row `i` of the attention mask
with its last column dropped, compared against zero (with the empty row as
the out-of-range default on both sides). -/
theorem tgt_key_padding_mask_getD_row (am : List (List Nat)) (i : Nat) :
    (tgt_key_padding_mask am).getD i [] =
      ((am.getD i []).dropLast).map (fun a => a == 0) := by
  induction am generalizing i with
  | nil => cases i <;> rfl
  | cons r t ih =>
    cases i with
    | zero => rfl
    | succ k =>
      simpa only [tgt_key_padding_mask, List.map_cons, List.getD_cons_succ] using ih k

/-- Pointwise reading of one mask row: the boolean at column `j` is true
exactly when the shifted attention entry there is zero (out-of-range
columns default to false on the left and to the non-zero sentinel 1 on the
right). -/
theorem mask_row_getD (r : List Nat) (j : Nat) :
    ((r.map (fun a => a == 0)).getD j false = true) ↔ (r.getD j 1 = 0) := by
  induction r generalizing j with
  | nil => simp
  | cons a t ih =>
    cases j with
    | zero => simp
    | succ k =>
      simpa only [List.map_cons, List.getD_cons_succ] using ih k

/-- C6: For an all-ones attention mask (a batch of `b` rows of `n` ones, no
padding) the derived `tgt_key_padding_mask` is all-false; in general the
entry at row `i`, column `j` of the derived mask is true exactly where the
shifted attention mask is 0. -/
theorem tgt_key_padding_mask_spec :
    (∀ b n : Nat,
        tgt_key_padding_mask (List.replicate b (List.replicate n 1)) =
          List.replicate b (List.replicate (n - 1) false))
    ∧ (∀ (am : List (List Nat)) (i j : Nat),
        ((tgt_key_padding_mask am).getD i []).getD j false = true ↔
          ((am.getD i []).dropLast).getD j 1 = 0) := by
  constructor
  · intro b n
    simp [tgt_key_padding_mask, List.map_replicate, List.dropLast_replicate]
  · intro am i j
    rw [tgt_key_padding_mask_getD_row, mask_row_getD]

/-- Unfolding `loggedEntries` over one batch: the possible entry at global
step `s + 1`, followed by the entries of the remaining batches with the
step counter advanced and the batch loss absorbed into the accumulator. -/
theorem loggedEntries_cons (s : Nat) (t l : ℚ) (rest : List ℚ) :
    loggedEntries s t (l :: rest) =
      (if (s + 1) % log_interval == 0 then
        [LogEntry.mk (s + 1) ((t + l) / ((s + 1 : Nat) : ℚ))] else [])
        ++ loggedEntries (s + 1) (t + l) rest := by
  unfold loggedEntries
  rw [List.length_cons, List.range_succ_eq_map, List.filterMap_cons, List.filterMap_map]
  have htail :
      List.filterMap
        ((fun i => if (s + i + 1) % log_interval == 0 then
            some (LogEntry.mk (s + i + 1)
              ((t + ((l :: rest).take (i + 1)).sum) / ((s + i + 1 : Nat) : ℚ)))
          else none) ∘ Nat.succ) (List.range rest.length) =
      List.filterMap (fun i => if (s + 1 + i + 1) % log_interval == 0 then
            some (LogEntry.mk (s + 1 + i + 1)
              ((t + l + (rest.take (i + 1)).sum) / ((s + 1 + i + 1 : Nat) : ℚ)))
          else none) (List.range rest.length) := by
    apply List.filterMap_congr
    intro i _
    simp only [Function.comp_apply, Nat.succ_eq_add_one, List.take_succ_cons, List.sum_cons]
    have hn : s + (i + 1) + 1 = s + 1 + i + 1 := by omega
    rw [hn, ← add_assoc]
  rw [htail]
  cases h : (s + 1) % log_interval == 0 with
  | true =>
    simp only [Nat.add_zero, Nat.zero_add, List.take_succ_cons, List.take_zero,
      List.sum_cons, List.sum_nil, add_zero, h, if_true]
    rfl
  | false =>
    simp only [Nat.add_zero, Nat.zero_add, h, if_false]
    rfl

/-- Closed form of the batch loop: the final step counter advances by the
number of batches, the epoch total accumulates the batch losses, and the
log entries are exactly those of `loggedEntries`. -/
theorem runBatches_eq (s : Nat) (t : ℚ) (ls : List ℚ) :
    runBatches s t ls = (s + ls.length, t + ls.sum, loggedEntries s t ls) := by
  induction ls generalizing s t with
  | nil => simp [runBatches, loggedEntries]
  | cons l rest ih =>
    simp only [runBatches]
    rw [ih (s + 1) (t + l), loggedEntries_cons]
    split
    · simp only [List.length_cons, List.sum_cons, List.singleton_append, Prod.mk.injEq]
      and_intros <;> first | rfl | omega | ring_nf
    · simp only [List.length_cons, List.sum_cons, List.nil_append, Prod.mk.injEq]
      and_intros <;> first | rfl | omega | ring_nf

/-- C7: `total_loss` restarts at 0 with each epoch while the step counter is
carried across epochs and never reset; every batch whose global step count
is a multiple of `log_interval = 500` logs
`average_loss = total_loss / step`, where `total_loss` is the current
epoch's prefix sum of losses but `step` is the global step count across all
epochs, so after the first epoch the logged value is not a per-epoch or
per-window average. -/
theorem logged_average_uses_global_step :
    log_interval = 500
    ∧ (∀ (s : Nat) (t : ℚ) (ls : List ℚ),
        runBatches s t ls = (s + ls.length, t + ls.sum, loggedEntries s t ls))
    ∧ (∀ (s : Nat) (e : List ℚ) (rest : List (List ℚ)),
        runEpochs s (e :: rest) =
          ((runEpochs (s + e.length) rest).1,
            loggedEntries s 0 e :: (runEpochs (s + e.length) rest).2))
    ∧ (∀ (s : Nat) (es : List (List ℚ)),
        (runEpochs s es).1 = s + (es.map List.length).sum) := by
  refine ⟨rfl, runBatches_eq, ?_, ?_⟩
  · intro s e rest
    simp only [runEpochs, runBatches_eq, zero_add]
  · intro s es
    induction es generalizing s with
    | nil => simp [runEpochs]
    | cons e rest ih =>
      simp only [runEpochs, runBatches_eq, List.map_cons, List.sum_cons, ih]
      omega

end Story2Music
